import Mathlib

/-
A shallow embedding of the pinnwand pastebin's web request handlers
(`src/pinnwand/handler/website.py`) together with proofs about the
paste/file lifecycle: creation, lazy expiry on read, content delivery
and removal.

Modelling conventions:
* Python's database session is explicit state passing on a `DB` value
  (a list of pastes, each owning its files; SQLAlchemy's cascade delete
  of a paste's files is automatic in this nested representation).
* Code of the repository that is not part of the handler module
  (`models.Paste`/`models.File` constructors, `utility.slug_create`,
  `utility.SlugContext`, `utility.filename_clean`, `utility.list_languages`,
  `File.fmt`, the configuration singleton and `datetime.now`) is modelled
  from the spec: slugs arrive as an explicit stream of generated
  identifiers, the removal token and current time are parameters, the
  lexer catalogue and expiry table live in a `Config` value,
  `exp_date = now + duration` as the spec prescribes, and the syntax
  highlighter `fmt` and filename sanitizer `filename_clean` are abstract
  function parameters.
* A commit that violates the store's slug uniqueness constraint raises,
  which the surrounding handler machinery surfaces as a generic 500
  error page after rolling the session back; `commitConflicts` is the
  uniqueness constraint checked at commit time.
-/

namespace Pinnwand

/-- Modelled from the spec: the `File` row of `models.File` (not under
`src/`): its own slug, the raw content stored verbatim, the lexer name,
and the optional user-supplied filename. -/
structure File where
  slug : String
  raw : String
  lexer : String
  filename : Option String
  deriving Repr, DecidableEq

/-- Modelled from the spec: the `Paste` row of `models.Paste` (not under
`src/`): unique slug, absolute expiry timestamp computed once at
creation, the secret removal token, a provenance tag, and the owned
ordered list of files. -/
structure Paste where
  slug : String
  exp_date : Int
  removal : String
  origin : String
  files : List File
  deriving Repr, DecidableEq

/-- The persistent store: the list of persisted pastes (each paste owns
its files, so deleting a paste cascades to its files). -/
structure DB where
  pastes : List Paste
  deriving Repr, DecidableEq

/-- Modelled from the spec: the configuration singleton
(`ConfigurationProvider.get_config()`, not under `src/`): the known
lexer catalogue (`utility.list_languages`), the expiry table mapping an
expiry class name to a duration, and the maximum paste size. -/
structure Config where
  lexers : List String
  expiries : List (String × Int)
  paste_size : Nat
  deriving Repr

/-- The observable outcome of one handler invocation. -/
inductive Response where
  | httpError (code : Nat)
  | validationError (msg : String)
  | redirectTo (loc : String)
  | redirectWithCookie (loc : String) (cookie : String) (cookiePath : String)
  | plainText (body : String)
  | attachment (filename : String) (body : String)
  | zipAttachment (filename : String) (entries : List (String × String))
  | showPage (slug : String) (canDelete : Bool)
  deriving Repr, DecidableEq

/-- Lookup of `expiry` in `configuration.expiries`. -/
def lookupExpiry (cfg : Config) (e : String) : Option Int :=
  (cfg.expiries.find? (fun kv => kv.1 == e)).map (fun kv => kv.2)

/-- Embeds `session.query(models.Paste).filter(models.Paste.slug == slug).first()`. -/
def findPaste (db : DB) (s : String) : Option Paste :=
  db.pastes.find? (fun p => p.slug == s)

/-- Embeds `session.query(models.Paste).filter(models.Paste.removal == removal).first()`. -/
def findPasteByRemoval (db : DB) (tok : String) : Option Paste :=
  db.pastes.find? (fun p => p.removal == tok)

/-- Scan the pastes in order for the first file with the given slug,
returning the owning paste with it; embeds
`session.query(models.File).filter(models.File.slug == file_id).first()`
together with the `file.paste` back-reference. -/
def findFileInPastes (s : String) : List Paste → Option (Paste × File)
  | [] => none
  | p :: rest =>
    match p.files.find? (fun f => f.slug == s) with
    | some f => some (p, f)
    | none => findFileInPastes s rest

/-- Lookup of a file by slug over the whole store. -/
def findFile (db : DB) (s : String) : Option (Paste × File) :=
  findFileInPastes s db.pastes

/-- Embeds `session.delete(paste); session.commit()`: the paste with the
given slug is removed, and its files disappear with it (cascade). -/
def deletePaste (db : DB) (s : String) : DB :=
  ⟨db.pastes.filter (fun p => p.slug != s)⟩

/-- Embeds `session.add(paste); session.commit()` on success. -/
def insertPaste (db : DB) (p : Paste) : DB :=
  ⟨db.pastes ++ [p]⟩

/-- Whether a slug is already used by a persisted paste or file — the
store-level uniqueness namespace shared by pastes and files. -/
def slugTaken (db : DB) (s : String) : Bool :=
  db.pastes.any (fun p => p.slug == s || p.files.any (fun f => f.slug == s))

/-- The uniqueness constraint checked when committing a new paste: the
commit raises when the paste's slug or any of its files' slugs is
already persisted. -/
def commitConflicts (db : DB) (p : Paste) : Bool :=
  slugTaken db p.slug || p.files.any (fun f => slugTaken db f.slug)

/-- Python's `binascii.hexlify` digit for a nibble (lowercase). -/
def hexDigitChar (n : Nat) : Char :=
  if n < 10 then Char.ofNat (48 + n) else Char.ofNat (87 + n)

/-- Python's `not s.strip()` test: a string strips to empty exactly when
every character is whitespace. -/
def isBlank (s : String) : Bool :=
  s.toList.all (fun c => c.isWhitespace)

/-- Embeds `binascii.hexlify(file.raw.encode("utf8"))`. -/
def hexlify (s : String) : String :=
  String.mk ((s.toUTF8.toList).flatMap
    (fun b => [hexDigitChar (b.toNat / 16), hexDigitChar (b.toNat % 16)]))

/-- Embeds `Create.post` (the legacy single-file creation endpoint).
Parameters supply the environment: the configuration, the three body
arguments, the slug produced by `utility.slug_create()`, the generated
removal token, the current time and the store.  The paste is built as
`models.Paste(utility.slug_create(), expiries[expiry], "deprecated-web")`
with one `models.File(paste.slug, raw, lexer)`; per the spec the paste's
`exp_date` is `now + duration` and the file carries no filename. -/
def createPost (cfg : Config) (lexer raw expiry : String)
    (slug removalTok : String) (now : Int) (db : DB) : Response × DB :=
  if !cfg.lexers.contains lexer then
    (.httpError 400, db)
  else if raw == "" || isBlank raw then
    (.redirectTo ("/+" ++ lexer), db)
  else
    match lookupExpiry cfg expiry with
    | none => (.httpError 400, db)
    | some dur =>
      let paste : Paste :=
        ⟨slug, now + dur, removalTok, "deprecated-web", [⟨slug, raw, lexer, none⟩]⟩
      if commitConflicts db paste then (.httpError 500, db)
      else
        (.redirectWithCookie ("/" ++ slug) removalTok ("/" ++ slug),
         insertPaste db paste)

/-- Zip the three parallel body-argument lists as Python's `zip` does
(truncating to the shortest). -/
def zip3 : List String → List String → List String → List (String × String × String)
  | lx :: lxs, rw :: rws, fn :: fns => (lx, rw, fn) :: zip3 lxs rws fns
  | _, _, _ => []

/-- Build the `models.File` objects of `CreateAction.post`: the file for
entry `j` (counting from the given start index `i`) receives the slug
`slugs (i + j)` from the slug context, its raw content and lexer, and
`filename if filename else None`. -/
def buildFiles (slugs : Nat → String) (i : Nat) :
    List (String × String × String) → List File
  | [] => []
  | (lx, rw, fn) :: rest =>
      ⟨slugs i, rw, lx, if fn == "" then none else some fn⟩ ::
        buildFiles slugs (i + 1) rest

/-- Embeds `paste.files[0].slug = paste.slug`. -/
def setFirstSlug (s : String) : List File → List File
  | [] => []
  | f :: rest => { f with slug := s } :: rest

/-- The files built by `CreateAction.post` before the first slug is
overwritten: the paste consumed slug index 0, so files start at index 1. -/
def actionFiles (slugs : Nat → String) (lexers raws filenames : List String) :
    List File :=
  buildFiles slugs 1 (zip3 lexers raws filenames)

/-- The paste object `CreateAction.post` commits: slug index 0, origin
"web", `exp_date = now + dur` (modelled from the spec for
`models.Paste`), and the files with the first file's slug overwritten by
the paste's slug. -/
def actionPaste (dur : Int) (slugs : Nat → String) (removalTok : String)
    (now : Int) (lexers raws filenames : List String) : Paste :=
  ⟨slugs 0, now + dur, removalTok, "web",
   setFirstSlug (slugs 0) (actionFiles slugs lexers raws filenames)⟩

/-- Embeds `CreateAction.post` (the multi-file creation endpoint).
`fmt lexer raw` is the abstract syntax highlighter behind `File.fmt`
(modelled from the spec; only its length is consumed here).  `slugs` is
the stream of identifiers `next(slug_context)` yields, in order.  The
validation guards appear in source order; a uniqueness violation at
commit surfaces as a generic 500 after rollback. -/
def createActionPost (cfg : Config) (fmt : String → String → String)
    (expiry : String) (lexers raws filenames : List String)
    (slugs : Nat → String) (removalTok : String) (now : Int) (db : DB) :
    Response × DB :=
  match lookupExpiry cfg expiry with
  | none => (.validationError "Invalid expiry provided", db)
  | some dur =>
    if lexers.isEmpty || raws.isEmpty || filenames.isEmpty then
      (.validationError "lexers, raws, and filenames arguments must not be empty", db)
    else if raws.any (fun r => isBlank r) then
      (.validationError "Empty pastes are not allowed", db)
    else if raws.length != lexers.length || filenames.length != lexers.length then
      (.validationError "lexers, raws, and filenames arguments must be the same length", db)
    else if lexers.any (fun lx => !cfg.lexers.contains lx) then
      (.validationError "Invalid lexer provided", db)
    else
      let files := actionFiles slugs lexers raws filenames
      let totalSize := (files.map (fun f => (fmt f.lexer f.raw).length)).sum
      if cfg.paste_size < totalSize then
        (.validationError "Sum of file sizes exceeds size limit when syntax highlighting applied", db)
      else
        let paste := actionPaste dur slugs removalTok now lexers raws filenames
        if commitConflicts db paste then (.httpError 500, db)
        else
          (.redirectWithCookie ("/" ++ slugs 0) removalTok ("/" ++ slugs 0),
           insertPaste db paste)

/-- Embeds `Show.get`: fetch the paste by slug, lazily delete it when
expired (reporting 404), otherwise render the page; `cookie` is the
visitor's `removal` cookie compared against the stored token. -/
def showGet (slug : String) (cookie : Option String) (now : Int) (db : DB) :
    Response × DB :=
  match findPaste db slug with
  | none => (.httpError 404, db)
  | some p =>
    if p.exp_date < now then (.httpError 404, deletePaste db p.slug)
    else (.showPage p.slug (cookie == some p.removal), db)

/-- Embeds `FileRaw.get`: fetch the file by slug; when the owning paste
is expired, delete the owning paste (cascading to its files) and report
404; otherwise serve the raw content verbatim. -/
def fileRawGet (file_id : String) (now : Int) (db : DB) : Response × DB :=
  match findFile db file_id with
  | none => (.httpError 404, db)
  | some (p, f) =>
    if p.exp_date < now then (.httpError 404, deletePaste db p.slug)
    else (.plainText f.raw, db)

/-- Embeds `FileHex.get`: as `FileRaw.get` but serving the hexlified
UTF-8 bytes of the content. -/
def fileHexGet (file_id : String) (now : Int) (db : DB) : Response × DB :=
  match findFile db file_id with
  | none => (.httpError 404, db)
  | some (p, f) =>
    if p.exp_date < now then (.httpError 404, deletePaste db p.slug)
    else (.plainText (hexlify f.raw), db)

/-- Embeds `FileDownload.get`: as `FileRaw.get` but served as an
attachment whose suggested name is built from the (sanitized) filename
and the file's own slug.  `filename_clean` is the abstract sanitizer
from `utility` (modelled from the spec). -/
def fileDownloadGet (filename_clean : String → String) (file_id : String)
    (now : Int) (db : DB) : Response × DB :=
  match findFile db file_id with
  | none => (.httpError 404, db)
  | some (p, f) =>
    if p.exp_date < now then (.httpError 404, deletePaste db p.slug)
    else
      let filename :=
        match f.filename with
        | some fn =>
          if fn == "" then f.slug ++ ".txt"
          else filename_clean fn ++ "-" ++ f.slug ++ ".txt"
        | none => f.slug ++ ".txt"
      (.attachment filename f.raw, db)

/-- Embeds `PasteDownload.get`: fetch the paste by slug, lazily expire,
otherwise serve a zip archive named after the paste slug whose entries
reuse the per-file download naming convention. -/
def pasteDownloadGet (filename_clean : String → String) (paste_id : String)
    (now : Int) (db : DB) : Response × DB :=
  match findPaste db paste_id with
  | none => (.httpError 404, db)
  | some p =>
    if p.exp_date < now then (.httpError 404, deletePaste db p.slug)
    else
      let entries := p.files.map (fun f =>
        (match f.filename with
         | some fn =>
           if fn == "" then f.slug ++ ".txt"
           else filename_clean fn ++ "-" ++ f.slug ++ ".txt"
         | none => f.slug ++ ".txt",
         f.raw))
      (.zipAttachment (p.slug ++ ".zip") entries, db)

/-- Embeds `Remove.get`: look the paste up by its removal token; a miss
is 404, an expired match is lazily deleted and reported 404, a live
match is deleted and the client redirected to the home view. -/
def removeGet (removal : String) (now : Int) (db : DB) : Response × DB :=
  match findPasteByRemoval db removal with
  | none => (.httpError 404, db)
  | some p =>
    if p.exp_date < now then (.httpError 404, deletePaste db p.slug)
    else (.redirectTo "/", deletePaste db p.slug)

/-- Uniqueness of file slugs across the whole store (the database
uniqueness constraint on `models.File.slug`): two files with the same
slug are the same file of the same paste. -/
def wfFiles (db : DB) : Prop :=
  ∀ p ∈ db.pastes, ∀ q ∈ db.pastes, ∀ f ∈ p.files, ∀ g ∈ q.files,
    f.slug = g.slug → p = q ∧ f = g

/-- Cross-namespace slug uniqueness (the slug generator draws from one
namespace shared by pastes and files, the paste's own first file
excepted): a file whose slug equals some paste's slug lives in that very
paste. -/
def wfCross (db : DB) : Prop :=
  ∀ p ∈ db.pastes, ∀ q ∈ db.pastes, ∀ f ∈ q.files,
    f.slug = p.slug → q = p

theorem findFileInPastes_nil {s : String} : findFileInPastes s [] = none := rfl

theorem findFileInPastes_cons {s : String} {p : Paste} {rest : List Paste} :
    findFileInPastes s (p :: rest) =
      match p.files.find? (fun f => f.slug == s) with
      | some f => some (p, f)
      | none => findFileInPastes s rest := rfl

theorem findPaste_eq_some {db : DB} {s : String} {p : Paste}
    (h : findPaste db s = some p) : p ∈ db.pastes ∧ p.slug = s := by
  refine ⟨List.mem_of_find?_eq_some h, ?_⟩
  simpa using List.find?_some h

theorem findPasteByRemoval_eq_some {db : DB} {tok : String} {p : Paste}
    (h : findPasteByRemoval db tok = some p) :
    p ∈ db.pastes ∧ p.removal = tok := by
  refine ⟨List.mem_of_find?_eq_some h, ?_⟩
  simpa using List.find?_some h

theorem mem_deletePaste {db : DB} {r : String} {q : Paste}
    (h : q ∈ (deletePaste db r).pastes) : q ∈ db.pastes ∧ q.slug ≠ r := by
  simpa [deletePaste, List.mem_filter] using h

theorem findPaste_eq_none {db : DB} {s : String}
    (h : ∀ q ∈ db.pastes, q.slug ≠ s) : findPaste db s = none := by
  rw [findPaste, List.find?_eq_none]
  intro q hq
  simpa using h q hq

theorem findPaste_deletePaste_self (db : DB) (s : String) :
    findPaste (deletePaste db s) s = none :=
  findPaste_eq_none (fun _ hq => (mem_deletePaste hq).2)

theorem findFileInPastes_eq_some {s : String} :
    ∀ {l : List Paste} {p : Paste} {f : File},
      findFileInPastes s l = some (p, f) →
      p ∈ l ∧ f ∈ p.files ∧ f.slug = s := by
  intro l
  induction l with
  | nil => intro p f h; simp [findFileInPastes_nil] at h
  | cons q rest ih =>
    intro p f h
    rw [findFileInPastes_cons] at h
    cases hq : q.files.find? (fun f => f.slug == s) with
    | some g =>
      rw [hq] at h
      simp only [Option.some.injEq, Prod.mk.injEq] at h
      obtain ⟨hqp, hgf⟩ := h
      subst hqp; subst hgf
      exact ⟨List.mem_cons_self _ _, List.mem_of_find?_eq_some hq,
        by simpa using List.find?_some hq⟩
    | none =>
      rw [hq] at h
      obtain ⟨h1, h2, h3⟩ := ih h
      exact ⟨List.mem_cons_of_mem _ h1, h2, h3⟩

theorem findFileInPastes_eq_none {s : String} {l : List Paste}
    (h : ∀ q ∈ l, ∀ g ∈ q.files, g.slug ≠ s) :
    findFileInPastes s l = none := by
  induction l with
  | nil => rfl
  | cons q rest ih =>
    rw [findFileInPastes_cons]
    have hq : q.files.find? (fun f => f.slug == s) = none := by
      rw [List.find?_eq_none]
      intro g hg
      simpa using h q (List.mem_cons_self _ _) g hg
    rw [hq]
    exact ih (fun q' hq' => h q' (List.mem_cons_of_mem _ hq'))

theorem findFile_eq_some {db : DB} {s : String} {p : Paste} {f : File}
    (h : findFile db s = some (p, f)) :
    p ∈ db.pastes ∧ f ∈ p.files ∧ f.slug = s :=
  findFileInPastes_eq_some h

theorem findFile_eq_none {db : DB} {s : String}
    (h : ∀ q ∈ db.pastes, ∀ g ∈ q.files, g.slug ≠ s) :
    findFile db s = none :=
  findFileInPastes_eq_none h

theorem findFileInPastes_append {s : String} {l₁ l₂ : List Paste}
    (h : findFileInPastes s l₁ = none) :
    findFileInPastes s (l₁ ++ l₂) = findFileInPastes s l₂ := by
  induction l₁ with
  | nil => rfl
  | cons q rest ih =>
    rw [findFileInPastes_cons] at h
    cases hq : q.files.find? (fun f => f.slug == s) with
    | some g => rw [hq] at h; exact absurd h (by simp)
    | none =>
      rw [hq] at h
      rw [List.cons_append, findFileInPastes_cons, hq]
      exact ih h

theorem slugTaken_eq_false {db : DB} {s : String}
    (h : slugTaken db s = false) :
    ∀ q ∈ db.pastes, q.slug ≠ s ∧ ∀ g ∈ q.files, g.slug ≠ s := by
  intro q hq
  rw [slugTaken, List.any_eq_false] at h
  have := h q hq
  simp only [Bool.or_eq_true, beq_iff_eq, List.any_eq_true, not_or, not_exists] at this
  obtain ⟨h1, h2⟩ := this
  refine ⟨h1, fun g hg => ?_⟩
  have := h2
  simp only [not_and] at this
  intro hslug
  exact (this g hg) (by simpa using hslug)

theorem buildFiles_length (slugs : Nat → String) :
    ∀ (i : Nat) (es : List (String × String × String)),
      (buildFiles slugs i es).length = es.length := by
  intro i es
  induction es generalizing i with
  | nil => rfl
  | cons e rest ih =>
    obtain ⟨lx, rw, fn⟩ := e
    simp [buildFiles, ih]

theorem buildFiles_get_slug (slugs : Nat → String) :
    ∀ (es : List (String × String × String)) (i j : Nat)
      (h : j < (buildFiles slugs i es).length),
      ((buildFiles slugs i es).get ⟨j, h⟩).slug = slugs (i + j) := by
  intro es
  induction es with
  | nil => intro i j h; simp [buildFiles] at h
  | cons e rest ih =>
    intro i j h
    obtain ⟨lx, rw, fn⟩ := e
    cases j with
    | zero => simp [buildFiles]
    | succ k =>
      have hk : k < (buildFiles slugs (i + 1) rest).length := by
        simpa [buildFiles] using h
      have := ih (i + 1) k hk
      simpa [buildFiles, Nat.add_assoc, Nat.add_comm 1 k] using this

theorem setFirstSlug_length (s : String) :
    ∀ l : List File, (setFirstSlug s l).length = l.length := by
  intro l
  cases l with
  | nil => rfl
  | cons f rest => rfl

theorem setFirstSlug_get_zero (s : String) (l : List File)
    (h : 0 < (setFirstSlug s l).length) :
    ((setFirstSlug s l).get ⟨0, h⟩).slug = s := by
  cases l with
  | nil => simp [setFirstSlug] at h
  | cons f rest => rfl

theorem setFirstSlug_get_succ (s : String) (l : List File) (j : Nat)
    (h : j + 1 < (setFirstSlug s l).length) :
    (setFirstSlug s l).get ⟨j + 1, h⟩ =
      l.get ⟨j + 1, by rw [← setFirstSlug_length s]; exact h⟩ := by
  cases l with
  | nil => simp [setFirstSlug] at h
  | cons f rest => rfl

/-- Claim C1: for every valid creation request — multi-file via
`CreateAction` or single-file via the legacy `Create` — the first file
of the persisted paste carries a slug equal to the paste's slug, while
every later file keeps its own freshly generated slug (the `(j+2)`-nd
identifier drawn from the slug stream for the file at position `j+1`,
the paste having drawn index 0 and the overwritten first file index 1). -/
theorem c1_first_file_shares_paste_slug
    (cfg : Config) (fmt : String → String → String)
    (expiry : String) (lexers raws filenames : List String)
    (slugs : Nat → String) (removalTok : String) (now : Int) (db : DB)
    (dur : Int)
    (lexerB rawB expiryB slugB removalTokB : String) (durB : Int)
    (hexp : lookupExpiry cfg expiry = some dur)
    (hne1 : lexers.isEmpty = false)
    (hne2 : raws.isEmpty = false)
    (hne3 : filenames.isEmpty = false)
    (hblank : raws.any (fun r => isBlank r) = false)
    (hlen1 : raws.length = lexers.length)
    (hlen2 : filenames.length = lexers.length)
    (hlex : lexers.any (fun lx => !cfg.lexers.contains lx) = false)
    (hsize : ((actionFiles slugs lexers raws filenames).map
        (fun f => (fmt f.lexer f.raw).length)).sum ≤ cfg.paste_size)
    (hcom : commitConflicts db
        (actionPaste dur slugs removalTok now lexers raws filenames) = false)
    (hlexB : cfg.lexers.contains lexerB = true)
    (htrimB : isBlank rawB = false)
    (hexpB : lookupExpiry cfg expiryB = some durB)
    (hcomB : slugTaken db slugB = false) :
    createActionPost cfg fmt expiry lexers raws filenames slugs removalTok now db
      = (.redirectWithCookie ("/" ++ slugs 0) removalTok ("/" ++ slugs 0),
         insertPaste db (actionPaste dur slugs removalTok now lexers raws filenames))
    ∧ (actionPaste dur slugs removalTok now lexers raws filenames).slug = slugs 0
    ∧ (∀ h0 : 0 < (actionPaste dur slugs removalTok now lexers raws filenames).files.length,
        ((actionPaste dur slugs removalTok now lexers raws filenames).files.get ⟨0, h0⟩).slug
          = (actionPaste dur slugs removalTok now lexers raws filenames).slug)
    ∧ (∀ j, ∀ hj : j + 1 < (actionPaste dur slugs removalTok now lexers raws filenames).files.length,
        ((actionPaste dur slugs removalTok now lexers raws filenames).files.get ⟨j + 1, hj⟩).slug
          = slugs (j + 2))
    ∧ createPost cfg lexerB rawB expiryB slugB removalTokB now db
        = (.redirectWithCookie ("/" ++ slugB) removalTokB ("/" ++ slugB),
           insertPaste db ⟨slugB, now + durB, removalTokB, "deprecated-web",
             [⟨slugB, rawB, lexerB, none⟩]⟩)
    ∧ (⟨slugB, rawB, lexerB, none⟩ : File).slug = slugB := by
  have hrawB : (rawB == "") = false := by
    cases hr : rawB == "" with
    | false => rfl
    | true =>
      have hre : rawB = "" := by simpa using hr
      rw [hre] at htrimB
      simp [isBlank] at htrimB
  have hlex2 : ∀ x ∈ lexers, x ∈ cfg.lexers := by
    intro x hx
    rw [List.any_eq_false] at hlex
    have := hlex x hx
    simpa using this
  have hlexB2 : lexerB ∈ cfg.lexers := by simpa using hlexB
  refine ⟨?_, rfl, ?_, ?_, ?_, rfl⟩
  · simp [createActionPost, hexp, hne1, hne2, hne3, hblank, hlen1, hlen2,
      hcom, Nat.not_lt.mpr hsize]
    exact hlex2
  · intro h0
    exact setFirstSlug_get_zero _ _ _
  · intro j hj
    simp only [actionPaste] at hj ⊢
    rw [setFirstSlug_get_succ]
    simp only [actionFiles] at hj ⊢
    rw [buildFiles_get_slug]
    congr 1
    omega
  · have hc : commitConflicts db
        ⟨slugB, now + durB, removalTokB, "deprecated-web",
          [⟨slugB, rawB, lexerB, none⟩]⟩ = false := by
      simp [commitConflicts, hcomB]
    simp [createPost, hlexB2, htrimB, hrawB, hexpB, hc]

/-- Concrete configuration used by the witnesses: two known lexers, one
expiry class of one day, a one-megabyte size limit. -/
def cfgW : Config := ⟨["text", "python"], [("1day", 86400)], 1000000⟩

/-- Concrete highlighter for the witnesses (prepends the lexer name, so
formatted output is strictly larger than the raw content). -/
def fmtW : String → String → String := fun lx r => lx ++ r

/-- Concrete slug stream for the witnesses. -/
def slugsW : Nat → String := fun n => "s" ++ Nat.repr n

/-- Concrete empty store for the witnesses. -/
def dbW : DB := ⟨[]⟩

/-- Witness for C1: a two-file `CreateAction` request and a legacy
`Create` request against an empty store, with every hypothesis
discharged by computation. -/
theorem c1_witness :
    createActionPost cfgW fmtW "1day" ["text", "text"] ["a", "b"] ["", "y.txt"]
        slugsW "rA" 0 dbW
      = (.redirectWithCookie ("/" ++ slugsW 0) "rA" ("/" ++ slugsW 0),
         insertPaste dbW
           (actionPaste 86400 slugsW "rA" 0 ["text", "text"] ["a", "b"] ["", "y.txt"]))
    ∧ (actionPaste 86400 slugsW "rA" 0 ["text", "text"] ["a", "b"] ["", "y.txt"]).slug
        = slugsW 0
    ∧ (∀ h0 : 0 < (actionPaste 86400 slugsW "rA" 0 ["text", "text"] ["a", "b"] ["", "y.txt"]).files.length,
        ((actionPaste 86400 slugsW "rA" 0 ["text", "text"] ["a", "b"] ["", "y.txt"]).files.get ⟨0, h0⟩).slug
          = (actionPaste 86400 slugsW "rA" 0 ["text", "text"] ["a", "b"] ["", "y.txt"]).slug)
    ∧ (∀ j, ∀ hj : j + 1 < (actionPaste 86400 slugsW "rA" 0 ["text", "text"] ["a", "b"] ["", "y.txt"]).files.length,
        ((actionPaste 86400 slugsW "rA" 0 ["text", "text"] ["a", "b"] ["", "y.txt"]).files.get ⟨j + 1, hj⟩).slug
          = slugsW (j + 2))
    ∧ createPost cfgW "python" "print(1)" "1day" "pB" "rB" 0 dbW
        = (.redirectWithCookie ("/" ++ "pB") "rB" ("/" ++ "pB"),
           insertPaste dbW ⟨"pB", (0 : Int) + 86400, "rB", "deprecated-web",
             [⟨"pB", "print(1)", "python", none⟩]⟩)
    ∧ (⟨"pB", "print(1)", "python", none⟩ : File).slug = "pB" :=
  c1_first_file_shares_paste_slug cfgW fmtW "1day" ["text", "text"] ["a", "b"]
    ["", "y.txt"] slugsW "rA" 0 dbW 86400 "python" "print(1)" "1day" "pB" "rB" 86400
    (by decide) (by decide) (by decide) (by decide) (by decide) (by decide)
    (by decide) (by decide) (by decide) (by decide) (by decide) (by decide)
    (by decide) (by decide)

theorem findFile_deletePaste_of_cross {db : DB} {p : Paste} {s : String}
    (hp : p ∈ db.pastes) (hps : p.slug = s) (hcross : wfCross db) :
    findFile (deletePaste db p.slug) s = none := by
  apply findFile_eq_none
  intro q hq g hg hgs
  obtain ⟨hq1, hq2⟩ := mem_deletePaste hq
  have hqp : q = p := hcross p hp q hq1 g hg (by rw [hgs, hps])
  exact hq2 (by rw [hqp])

theorem findFile_deletePaste_of_files {db : DB} {p : Paste} {f : File} {s : String}
    (hp : p ∈ db.pastes) (hf : f ∈ p.files) (hfs : f.slug = s) (hwf : wfFiles db) :
    findFile (deletePaste db p.slug) s = none := by
  apply findFile_eq_none
  intro q hq g hg hgs
  obtain ⟨hq1, hq2⟩ := mem_deletePaste hq
  have hpq : p = q := (hwf p hp q hq1 f hf g hg (by rw [hfs, hgs])).1
  exact hq2 (by rw [← hpq])

theorem findPaste_deletePaste_of_cross {db : DB} {p : Paste} {f : File} {s : String}
    (hp : p ∈ db.pastes) (hf : f ∈ p.files) (hfs : f.slug = s) (hcross : wfCross db) :
    findPaste (deletePaste db p.slug) s = none := by
  apply findPaste_eq_none
  intro q hq hqs
  obtain ⟨hq1, hq2⟩ := mem_deletePaste hq
  have hpq : p = q := hcross q hq1 p hp f hf (by rw [hfs, hqs])
  exact hq2 (by rw [← hpq])

theorem reads_404_of_gone {db : DB} {s : String}
    (hp : findPaste db s = none) (hf : findFile db s = none)
    (t : Int) (c : Option String) (clean : String → String) :
    (showGet s c t db).1 = .httpError 404 ∧
    (fileRawGet s t db).1 = .httpError 404 ∧
    (fileHexGet s t db).1 = .httpError 404 ∧
    (fileDownloadGet clean s t db).1 = .httpError 404 ∧
    (pasteDownloadGet clean s t db).1 = .httpError 404 := by
  simp [showGet, fileRawGet, fileHexGet, fileDownloadGet, pasteDownloadGet, hp, hf]

/-- Claim C2: every read by slug — `Show` or `PasteDownload` on a paste,
`FileRaw`, `FileHex` or `FileDownload` on a file — that finds a record
whose `exp_date` has passed deletes it inside the same transaction (for
a file, the owning paste and with it all its files) and reports
NotFound; afterwards the record is gone from the store, so every
subsequent read of that slug (through any of the read handlers, at any
time) also reports NotFound.  The hypotheses `wfFiles` and `wfCross`
are the store's slug-uniqueness constraints. -/
theorem c2_lazy_expiry_terminal
    (db : DB) (s : String) (now t : Int) (c c2 : Option String)
    (clean clean2 : String → String)
    (hwf : wfFiles db) (hcross : wfCross db) :
    (∀ p, findPaste db s = some p → p.exp_date < now →
      showGet s c now db = (.httpError 404, deletePaste db p.slug) ∧
      pasteDownloadGet clean s now db = (.httpError 404, deletePaste db p.slug) ∧
      findPaste (deletePaste db p.slug) s = none ∧
      findFile (deletePaste db p.slug) s = none ∧
      (showGet s c2 t (deletePaste db p.slug)).1 = .httpError 404 ∧
      (fileRawGet s t (deletePaste db p.slug)).1 = .httpError 404 ∧
      (fileHexGet s t (deletePaste db p.slug)).1 = .httpError 404 ∧
      (fileDownloadGet clean2 s t (deletePaste db p.slug)).1 = .httpError 404 ∧
      (pasteDownloadGet clean2 s t (deletePaste db p.slug)).1 = .httpError 404) ∧
    (∀ p f, findFile db s = some (p, f) → p.exp_date < now →
      fileRawGet s now db = (.httpError 404, deletePaste db p.slug) ∧
      fileHexGet s now db = (.httpError 404, deletePaste db p.slug) ∧
      fileDownloadGet clean s now db = (.httpError 404, deletePaste db p.slug) ∧
      findPaste (deletePaste db p.slug) s = none ∧
      findFile (deletePaste db p.slug) s = none ∧
      (showGet s c2 t (deletePaste db p.slug)).1 = .httpError 404 ∧
      (fileRawGet s t (deletePaste db p.slug)).1 = .httpError 404 ∧
      (fileHexGet s t (deletePaste db p.slug)).1 = .httpError 404 ∧
      (fileDownloadGet clean2 s t (deletePaste db p.slug)).1 = .httpError 404 ∧
      (pasteDownloadGet clean2 s t (deletePaste db p.slug)).1 = .httpError 404) := by
  constructor
  · intro p hfind hexp
    obtain ⟨hmem, hslug⟩ := findPaste_eq_some hfind
    have hgonep : findPaste (deletePaste db p.slug) s = none := by
      rw [hslug]; exact findPaste_deletePaste_self db s
    have hgonef : findFile (deletePaste db p.slug) s = none :=
      findFile_deletePaste_of_cross hmem hslug hcross
    obtain ⟨g1, g2, g3, g4, g5⟩ := reads_404_of_gone hgonep hgonef t c2 clean2
    refine ⟨?_, ?_, hgonep, hgonef, g1, g2, g3, g4, g5⟩
    · simp only [showGet, hfind]
      rw [if_pos hexp]
    · simp only [pasteDownloadGet, hfind]
      rw [if_pos hexp]
  · intro p f hfind hexp
    obtain ⟨hmem, hfmem, hslug⟩ := findFile_eq_some hfind
    have hgonep : findPaste (deletePaste db p.slug) s = none :=
      findPaste_deletePaste_of_cross hmem hfmem hslug hcross
    have hgonef : findFile (deletePaste db p.slug) s = none :=
      findFile_deletePaste_of_files hmem hfmem hslug hwf
    obtain ⟨g1, g2, g3, g4, g5⟩ := reads_404_of_gone hgonep hgonef t c2 clean2
    refine ⟨?_, ?_, ?_, hgonep, hgonef, g1, g2, g3, g4, g5⟩
    · simp only [fileRawGet, hfind]
      rw [if_pos hexp]
    · simp only [fileHexGet, hfind]
      rw [if_pos hexp]
    · simp only [fileDownloadGet, hfind]
      rw [if_pos hexp]

/-- Concrete expired paste for the C2 witness: its own slug doubles as
its first file's slug and it owns a second file with its own slug. -/
def pC2 : Paste :=
  ⟨"p1", -5, "r1", "web",
   [⟨"p1", "hello", "text", none⟩, ⟨"f2", "world", "text", some "y"⟩]⟩

/-- Concrete second file of `pC2`. -/
def fC2 : File := ⟨"f2", "world", "text", some "y"⟩

/-- Concrete store holding only the expired paste `pC2`. -/
def dbC2 : DB := ⟨[pC2]⟩

/-- Witness for C2: at time 0 the paste stored with expiry -5 is
expired; a `FileRaw` read of its second file's slug deletes the whole
paste and reports 404, the record is gone, and later reads (here at
time 7) still report 404; likewise a `Show` read of the paste slug. -/
theorem c2_witness :
    fileRawGet "f2" 0 dbC2 = (.httpError 404, deletePaste dbC2 "p1") ∧
    findFile (deletePaste dbC2 "p1") "f2" = none ∧
    (fileRawGet "f2" 7 (deletePaste dbC2 "p1")).1 = .httpError 404 ∧
    showGet "p1" none 0 dbC2 = (.httpError 404, deletePaste dbC2 "p1") ∧
    (showGet "p1" none 7 (deletePaste dbC2 "p1")).1 = .httpError 404 := by
  have h2 := (c2_lazy_expiry_terminal dbC2 "f2" 0 7 none none (fun x => x)
    (fun x => x) (by unfold wfFiles; decide) (by unfold wfCross; decide)).2
    pC2 fC2 rfl (by decide)
  have h1 := (c2_lazy_expiry_terminal dbC2 "p1" 0 7 none none (fun x => x)
    (fun x => x) (by unfold wfFiles; decide) (by unfold wfCross; decide)).1
    pC2 rfl (by decide)
  exact ⟨h2.1, h2.2.2.2.2.1, h2.2.2.2.2.2.2.1, h1.1, h1.2.2.2.2.1⟩

/-- Concrete live paste (expiry 100, read at time 0) for the Remove
witnesses. -/
def pLive : Paste := ⟨"pl", 100, "rl", "web", [⟨"pl", "x", "text", none⟩]⟩

/-- Concrete store holding only the live paste `pLive`. -/
def dbLive : DB := ⟨[pLive]⟩

/-- Counterexample to claim C3 as stated: with the token "sometoken" and
an empty store, `Remove` does not redirect to the home view — it raises
NotFound (404), a distinct error surface. -/
theorem c3_counterexample :
    (removeGet "sometoken" 0 dbW).1 = .httpError 404 ∧
    (removeGet "sometoken" 0 dbW).1 ≠ .redirectTo "/" := by
  decide

/-- Claim C3 (amended): `Remove` redirects to the home view only when
the token matches a non-expired paste's removal token; when no paste
carries the token, or the matching paste is already expired, it reports
NotFound (404) instead — the outcome is not a redirect in every case. -/
theorem c3_amended_redirect_only_on_success (db : DB) (tok : String) (now : Int) :
    (findPasteByRemoval db tok = none →
      removeGet tok now db = (.httpError 404, db)) ∧
    (∀ p, findPasteByRemoval db tok = some p → p.exp_date < now →
      (removeGet tok now db).1 = .httpError 404) ∧
    (∀ p, findPasteByRemoval db tok = some p → ¬ p.exp_date < now →
      (removeGet tok now db).1 = .redirectTo "/") := by
  refine ⟨?_, ?_, ?_⟩
  · intro h
    simp [removeGet, h]
  · intro p h hexp
    simp only [removeGet, h]
    rw [if_pos hexp]
  · intro p h hexp
    simp only [removeGet, h]
    rw [if_neg hexp]

/-- Witness for the amended C3: a missing token 404s on a live store, an
expired paste's token 404s, a live paste's token redirects home. -/
theorem c3_witness :
    removeGet "zz" 0 dbLive = (.httpError 404, dbLive) ∧
    (removeGet "r1" 0 dbC2).1 = .httpError 404 ∧
    (removeGet "rl" 0 dbLive).1 = .redirectTo "/" :=
  ⟨(c3_amended_redirect_only_on_success dbLive "zz" 0).1 (by decide),
   (c3_amended_redirect_only_on_success dbC2 "r1" 0).2.1 pC2 rfl (by decide),
   (c3_amended_redirect_only_on_success dbLive "rl" 0).2.2 pLive rfl (by decide)⟩

/-- Counterexample to claim C4 as stated: the token "r1" is the removal
token of an expired paste, so it is not "the stored removal token of a
non-expired paste"; the claim then demands NotFound with no paste
deleted, but the code deletes the expired paste (the store empties)
while reporting NotFound. -/
theorem c4_counterexample :
    (removeGet "r1" 0 dbC2).1 = .httpError 404 ∧
    (removeGet "r1" 0 dbC2).2 ≠ dbC2 ∧
    (removeGet "r1" 0 dbC2).2.pastes = [] := by
  decide

/-- Claim C4 (amended): `Remove` deletes the matching paste (with all
its files) and redirects exactly when the supplied token equals the
removal token of a non-expired paste; when no paste's removal token
equals the supplied value — including a valid paste slug passed in place
of the token — it reports NotFound and the store is unchanged; when the
token matches an already-expired paste, it still reports NotFound but
that expired paste is lazily deleted. -/
theorem c4_amended_remove_deletion (db : DB) (tok : String) (now : Int) :
    ((∀ q ∈ db.pastes, q.removal ≠ tok) →
      removeGet tok now db = (.httpError 404, db)) ∧
    (∀ p, findPasteByRemoval db tok = some p → ¬ p.exp_date < now →
      removeGet tok now db = (.redirectTo "/", deletePaste db p.slug) ∧
      findPaste (deletePaste db p.slug) p.slug = none) ∧
    (∀ p, findPasteByRemoval db tok = some p → p.exp_date < now →
      removeGet tok now db = (.httpError 404, deletePaste db p.slug)) := by
  refine ⟨?_, ?_, ?_⟩
  · intro h
    have hnone : findPasteByRemoval db tok = none := by
      rw [findPasteByRemoval, List.find?_eq_none]
      intro q hq
      simpa using h q hq
    simp [removeGet, hnone]
  · intro p h hexp
    simp only [removeGet, h]
    rw [if_neg hexp]
    exact ⟨rfl, findPaste_deletePaste_self db p.slug⟩
  · intro p h hexp
    simp only [removeGet, h]
    rw [if_pos hexp]

/-- Witness for the amended C4: the live paste's slug "pl" passed as a
token deletes nothing, the live paste's real token "rl" deletes it and
redirects, the expired paste's token "r1" deletes it with a 404. -/
theorem c4_witness :
    removeGet "pl" 0 dbLive = (.httpError 404, dbLive) ∧
    removeGet "rl" 0 dbLive = (.redirectTo "/", deletePaste dbLive "pl") ∧
    findPaste (deletePaste dbLive "pl") "pl" = none ∧
    removeGet "r1" 0 dbC2 = (.httpError 404, deletePaste dbC2 "p1") := by
  have hA := (c4_amended_remove_deletion dbLive "pl" 0).1 (by decide)
  have hB := (c4_amended_remove_deletion dbLive "rl" 0).2.1 pLive rfl (by decide)
  have hC := (c4_amended_remove_deletion dbC2 "r1" 0).2.2 pC2 rfl (by decide)
  exact ⟨hA, hB.1, hB.2, hC⟩

theorem buildFiles_map_size (fmt : String → String → String)
    (slugs : Nat → String) :
    ∀ (i : Nat) (es : List (String × String × String)),
      (buildFiles slugs i es).map (fun f => (fmt f.lexer f.raw).length)
        = es.map (fun e => (fmt e.1 e.2.1).length) := by
  intro i es
  induction es generalizing i with
  | nil => rfl
  | cons e rest ih =>
    obtain ⟨lx, rw, fn⟩ := e
    simp [buildFiles, ih]

/-- Claim C5: a multi-file creation request whose total size — the sum
over all files of the length of the highlighted/formatted content
`fmt lexer raw`, not of the raw content — exceeds the configured
maximum fails with a `ValidationError`, and the store is unchanged (no
paste or file is persisted). -/
theorem c5_size_limit_rejects
    (cfg : Config) (fmt : String → String → String)
    (expiry : String) (lexers raws filenames : List String)
    (slugs : Nat → String) (removalTok : String) (now : Int) (db : DB)
    (hlen1 : raws.length = lexers.length)
    (hlen2 : filenames.length = lexers.length)
    (hsize : cfg.paste_size <
      ((zip3 lexers raws filenames).map (fun e => (fmt e.1 e.2.1).length)).sum) :
    ∃ msg, createActionPost cfg fmt expiry lexers raws filenames slugs removalTok now db
      = (.validationError msg, db) := by
  cases hexp : lookupExpiry cfg expiry with
  | none =>
    exact ⟨"Invalid expiry provided", by simp [createActionPost, hexp]⟩
  | some dur =>
    cases hg1 : (lexers.isEmpty || raws.isEmpty || filenames.isEmpty) with
    | true =>
      exact ⟨"lexers, raws, and filenames arguments must not be empty",
        by simp [createActionPost, hexp, hg1]⟩
    | false =>
      cases hg2 : raws.any (fun r => isBlank r) with
      | true =>
        exact ⟨"Empty pastes are not allowed",
          by simp [createActionPost, hexp, hg1, hg2]⟩
      | false =>
        cases hg3 : lexers.any (fun lx => !cfg.lexers.contains lx) with
        | true =>
          have hg3x : ∃ x ∈ lexers, x ∉ cfg.lexers := by
            rw [List.any_eq_true] at hg3
            obtain ⟨x, hx, hq⟩ := hg3
            exact ⟨x, hx, by simpa using hq⟩
          exact ⟨"Invalid lexer provided",
            by simp [createActionPost, hexp, hg1, hg2, hlen1, hlen2, hg3x]⟩
        | false =>
          have hg3x : ∀ x ∈ lexers, x ∈ cfg.lexers := by
            rw [List.any_eq_false] at hg3
            intro x hx
            simpa using hg3 x hx
          have hlt : cfg.paste_size <
              ((actionFiles slugs lexers raws filenames).map
                (fun f => (fmt f.lexer f.raw).length)).sum := by
            rw [actionFiles, buildFiles_map_size]
            exact hsize
          refine ⟨"Sum of file sizes exceeds size limit when syntax highlighting applied", ?_⟩
          simp [createActionPost, hexp, hg1, hg2, hlen1, hlen2, hlt]
          exact hg3x

/-- Concrete configuration with a tiny (3-byte) size limit. -/
def cfgSmall : Config := ⟨["text"], [("1day", 86400)], 3⟩

/-- Witness for C5: a single-file request whose highlighted form
("text" ++ "abcd", 8 bytes) exceeds the 3-byte limit is rejected with a
`ValidationError` and the store stays empty. -/
theorem c5_witness :
    ∃ msg, createActionPost cfgSmall fmtW "1day" ["text"] ["abcd"] [""]
        slugsW "r5" 0 dbW = (.validationError msg, dbW) :=
  c5_size_limit_rejects cfgSmall fmtW "1day" ["text"] ["abcd"] [""]
    slugsW "r5" 0 dbW rfl rfl (by decide)

/-- Claim C10 (implicit): the legacy single-file `Create` endpoint
performs no size validation at all: for every raw content (of any
length) with a valid lexer, valid expiry and non-blank code, and for
every configured maximum paste size, the paste is persisted and the
client redirected — the outcome never depends on `paste_size`. -/
theorem c10_legacy_create_ignores_size
    (cfg : Config) (lexer raw expiry : String) (slug removalTok : String)
    (now : Int) (db : DB) (dur : Int) (sizeLimit : Nat)
    (hlex : cfg.lexers.contains lexer = true)
    (hraw : isBlank raw = false)
    (hexp : lookupExpiry cfg expiry = some dur)
    (hcom : slugTaken db slug = false) :
    createPost { cfg with paste_size := sizeLimit } lexer raw expiry slug
        removalTok now db
      = (.redirectWithCookie ("/" ++ slug) removalTok ("/" ++ slug),
         insertPaste db ⟨slug, now + dur, removalTok, "deprecated-web",
           [⟨slug, raw, lexer, none⟩]⟩) := by
  have hraw2 : (raw == "") = false := by
    cases hr : raw == "" with
    | false => rfl
    | true =>
      have hre : raw = "" := by simpa using hr
      rw [hre] at hraw
      simp [isBlank] at hraw
  have hlex2 : lexer ∈ cfg.lexers := by simpa using hlex
  have hc : commitConflicts db
      ⟨slug, now + dur, removalTok, "deprecated-web",
        [⟨slug, raw, lexer, none⟩]⟩ = false := by
    simp [commitConflicts, hcom]
  simp [createPost, lookupExpiry, hlex2, hraw, hraw2, hc]
  simp only [lookupExpiry] at hexp
  simp [hexp]
  exact hc

/-- Witness for C10: with the 3-byte limit configuration, the legacy
endpoint persists an 8-byte paste and redirects. -/
theorem c10_witness :
    createPost cfgSmall "text" "abcdefgh" "1day" "pX" "rX" 0 dbW
      = (.redirectWithCookie ("/" ++ "pX") "rX" ("/" ++ "pX"),
         insertPaste dbW ⟨"pX", (0 : Int) + 86400, "rX", "deprecated-web",
           [⟨"pX", "abcdefgh", "text", none⟩]⟩) :=
  c10_legacy_create_ignores_size cfgSmall "text" "abcdefgh" "1day" "pX" "rX"
    0 dbW 86400 3 (by decide) (by decide) (by decide) (by decide)

/-- Concrete store for C6 already holding a paste with slug "aa". -/
def dbC6 : DB := ⟨[⟨"aa", 100, "r0", "web", [⟨"aa", "x", "text", none⟩]⟩]⟩

/-- Slug stream whose first identifier collides with the stored "aa". -/
def slugsC6 : Nat → String := fun n => if n == 0 then "aa" else "bb"

/-- Fresh slug stream that would not collide. -/
def slugsFresh : Nat → String := fun n => if n == 0 then "cc" else "dd"

/-- Counterexample to claim C6 as stated: when the commit of a creation
hits the slug uniqueness constraint (the generated paste slug "aa" is
already persisted), the claim demands an internal regenerate-and-retry
that surfaces a generic error only once retries are exhausted; but the
code surfaces the generic server error (500) immediately, persisting
nothing — even though regenerated identifiers (the `slugsFresh` stream,
second conjunct) would have let the very same creation succeed. -/
theorem c6_counterexample :
    createActionPost cfgW fmtW "1day" ["text"] ["hello"] [""] slugsC6 "r9" 0 dbC6
      = (.httpError 500, dbC6) ∧
    createActionPost cfgW fmtW "1day" ["text"] ["hello"] [""] slugsFresh "r9" 0 dbC6
      = (.redirectWithCookie ("/" ++ "cc") "r9" ("/" ++ "cc"),
         insertPaste dbC6
           (actionPaste 86400 slugsFresh "r9" 0 ["text"] ["hello"] [""])) := by
  decide

/-- Claim C6 (amended): a uniqueness-constraint violation at commit time
is not retried: both creation endpoints fail immediately with a generic
server error (500) and leave the store unchanged. -/
theorem c6_amended_no_retry_on_conflict
    (cfg : Config) (fmt : String → String → String)
    (expiry : String) (lexers raws filenames : List String)
    (slugs : Nat → String) (removalTok : String) (now : Int) (db : DB)
    (dur : Int) (lexerB rawB expiryB slugB removalTokB : String) (durB : Int)
    (hexp : lookupExpiry cfg expiry = some dur)
    (hne1 : lexers.isEmpty = false)
    (hne2 : raws.isEmpty = false)
    (hne3 : filenames.isEmpty = false)
    (hblank : raws.any (fun r => isBlank r) = false)
    (hlen1 : raws.length = lexers.length)
    (hlen2 : filenames.length = lexers.length)
    (hlex : lexers.any (fun lx => !cfg.lexers.contains lx) = false)
    (hsize : ((actionFiles slugs lexers raws filenames).map
        (fun f => (fmt f.lexer f.raw).length)).sum ≤ cfg.paste_size)
    (hcom : commitConflicts db
        (actionPaste dur slugs removalTok now lexers raws filenames) = true)
    (hlexB : cfg.lexers.contains lexerB = true)
    (htrimB : isBlank rawB = false)
    (hexpB : lookupExpiry cfg expiryB = some durB)
    (hcomB : slugTaken db slugB = true) :
    createActionPost cfg fmt expiry lexers raws filenames slugs removalTok now db
      = (.httpError 500, db)
    ∧ createPost cfg lexerB rawB expiryB slugB removalTokB now db
      = (.httpError 500, db) := by
  have hlex2 : ∀ x ∈ lexers, x ∈ cfg.lexers := by
    rw [List.any_eq_false] at hlex
    intro x hx
    simpa using hlex x hx
  have hrawB2 : (rawB == "") = false := by
    cases hr : rawB == "" with
    | false => rfl
    | true =>
      have hre : rawB = "" := by simpa using hr
      rw [hre] at htrimB
      simp [isBlank] at htrimB
  have hlexB2 : lexerB ∈ cfg.lexers := by simpa using hlexB
  have hcB : commitConflicts db
      ⟨slugB, now + durB, removalTokB, "deprecated-web",
        [⟨slugB, rawB, lexerB, none⟩]⟩ = true := by
    simp [commitConflicts, hcomB]
  constructor
  · simp [createActionPost, hexp, hne1, hne2, hne3, hblank, hlen1, hlen2,
      hcom, Nat.not_lt.mpr hsize]
    exact hlex2
  · simp [createPost, hlexB2, htrimB, hrawB2, hexpB, hcB]

/-- Witness for the amended C6: the colliding creation from the C6
counterexample input errors with 500 on both endpoints. -/
theorem c6_witness :
    createActionPost cfgW fmtW "1day" ["text"] ["hello"] [""] slugsC6 "r9" 0 dbC6
      = (.httpError 500, dbC6) ∧
    createPost cfgW "text" "hello" "1day" "aa" "r9" 0 dbC6
      = (.httpError 500, dbC6) :=
  c6_amended_no_retry_on_conflict cfgW fmtW "1day" ["text"] ["hello"] [""]
    slugsC6 "r9" 0 dbC6 86400 "text" "hello" "1day" "aa" "r9" 86400
    (by decide) (by decide) (by decide) (by decide) (by decide) (by decide)
    (by decide) (by decide) (by decide) (by decide) (by decide) (by decide)
    (by decide) (by decide)

/-- Claim C7: round-trip — content accepted by the legacy `Create`
(valid lexer and expiry, non-blank code, fresh slug) and then fetched
via `FileRaw` under the slug the creation redirected to comes back as
exactly the submitted string, as long as the paste has not expired at
read time: nothing strips or re-encodes the content between submission
and retrieval. -/
theorem c7_create_raw_round_trip
    (cfg : Config) (lexer raw expiry : String) (slug removalTok : String)
    (now now2 : Int) (db : DB) (dur : Int)
    (hlex : cfg.lexers.contains lexer = true)
    (hraw : isBlank raw = false)
    (hexp : lookupExpiry cfg expiry = some dur)
    (hcom : slugTaken db slug = false)
    (hlive : ¬ now + dur < now2) :
    fileRawGet slug now2 (createPost cfg lexer raw expiry slug removalTok now db).2
      = (.plainText raw,
         (createPost cfg lexer raw expiry slug removalTok now db).2) := by
  have hraw2 : (raw == "") = false := by
    cases hr : raw == "" with
    | false => rfl
    | true =>
      have hre : raw = "" := by simpa using hr
      rw [hre] at hraw
      simp [isBlank] at hraw
  have hlex2 : lexer ∈ cfg.lexers := by simpa using hlex
  have hc : commitConflicts db
      ⟨slug, now + dur, removalTok, "deprecated-web",
        [⟨slug, raw, lexer, none⟩]⟩ = false := by
    simp [commitConflicts, hcom]
  have hstep : (createPost cfg lexer raw expiry slug removalTok now db).2
      = insertPaste db
          ⟨slug, now + dur, removalTok, "deprecated-web",
            [⟨slug, raw, lexer, none⟩]⟩ := by
    simp [createPost, hlex2, hraw, hraw2, hexp, hc]
  rw [hstep]
  have hnone : findFileInPastes slug db.pastes = none :=
    findFileInPastes_eq_none
      (fun q hq g hg => (slugTaken_eq_false hcom q hq).2 g hg)
  have hfind : findFile
      (insertPaste db
        ⟨slug, now + dur, removalTok, "deprecated-web",
          [⟨slug, raw, lexer, none⟩]⟩) slug
      = some (⟨slug, now + dur, removalTok, "deprecated-web",
          [⟨slug, raw, lexer, none⟩]⟩, ⟨slug, raw, lexer, none⟩) := by
    rw [findFile, insertPaste, findFileInPastes_append hnone]
    simp [findFileInPastes_cons]
  simp only [fileRawGet, hfind]
  simp [hlive]

/-- Witness for C7: submitting "print(1)" through the legacy endpoint
and reading it back at time 5 returns exactly "print(1)". -/
theorem c7_witness :
    fileRawGet "pR" 5 (createPost cfgW "text" "print(1)" "1day" "pR" "rR" 0 dbW).2
      = (.plainText "print(1)",
         (createPost cfgW "text" "print(1)" "1day" "pR" "rR" 0 dbW).2) :=
  c7_create_raw_round_trip cfgW "text" "print(1)" "1day" "pR" "rR" 0 5 dbW
    86400 (by decide) (by decide) (by decide) (by decide) (by decide)

/-- The suggested download filename convention as the spec states it:
`{sanitized filename}-{slug}.txt` when a (non-empty) filename was
supplied, `{slug}.txt` otherwise, the slug being the file's own
identifier.  The handlers inline this computation; the C8 theorem proves
they refine this definition. -/
def downloadName (clean : String → String) (f : File) : String :=
  match f.filename with
  | some fn =>
    if fn == "" then f.slug ++ ".txt"
    else clean fn ++ "-" ++ f.slug ++ ".txt"
  | none => f.slug ++ ".txt"

/-- Claim C8: for every found, non-expired file, `FileDownload` suggests
`{sanitized filename}-{slug}.txt` when the file has a (non-empty)
user-supplied filename and `{slug}.txt` otherwise, where the slug is
that file's own identifier (not the owning paste's); and `PasteDownload`
builds its zip archive (named `{paste slug}.zip`) with one entry per
file using the very same naming convention. -/
theorem c8_download_filenames
    (clean : String → String) (file_id paste_id : String) (now : Int)
    (db : DB) (p q : Paste) (f : File)
    (hf : findFile db file_id = some (p, f)) (hlivef : ¬ p.exp_date < now)
    (hq : findPaste db paste_id = some q) (hliveq : ¬ q.exp_date < now) :
    fileDownloadGet clean file_id now db
      = (.attachment (downloadName clean f) f.raw, db)
    ∧ (∀ fn, f.filename = some fn → fn ≠ "" →
        downloadName clean f = clean fn ++ "-" ++ f.slug ++ ".txt")
    ∧ (f.filename = none → downloadName clean f = f.slug ++ ".txt")
    ∧ pasteDownloadGet clean paste_id now db
      = (.zipAttachment (q.slug ++ ".zip")
          (q.files.map (fun g => (downloadName clean g, g.raw))), db) := by
  refine ⟨?_, ?_, ?_, ?_⟩
  · simp only [fileDownloadGet, hf]
    rw [if_neg hlivef]
    rfl
  · intro fn hfn hne
    simp [downloadName, hfn, hne]
  · intro hfn
    simp [downloadName, hfn]
  · simp only [pasteDownloadGet, hq]
    rw [if_neg hliveq]
    rfl

/-- Concrete paste for the C8 witness: the paste slug "pz" names the
first file; the second file has its own slug "f8" and the user filename
"y.txt". -/
def pz : Paste :=
  ⟨"pz", 100, "rz", "web",
   [⟨"pz", "a", "text", some "x.txt"⟩, ⟨"f8", "b", "text", some "y.txt"⟩]⟩

/-- Concrete second file of `pz`. -/
def fz2 : File := ⟨"f8", "b", "text", some "y.txt"⟩

/-- Concrete store for the C8 witness. -/
def dbC8 : DB := ⟨[pz]⟩

/-- Concrete sanitizer for the C8 witness (maps "y.txt" to "y"). -/
def cleanW : String → String := fun s => if s == "y.txt" then "y" else s

/-- Witness for C8, matching the spec's scenario: downloading the second
file of a two-file paste suggests `y-f8.txt` — built from that file's
own slug "f8", not the paste's "pz" — and the whole-paste zip reuses the
convention for each entry. -/
theorem c8_witness :
    fileDownloadGet cleanW "f8" 0 dbC8
      = (.attachment (cleanW "y.txt" ++ "-" ++ "f8" ++ ".txt") "b", dbC8)
    ∧ downloadName cleanW fz2 = cleanW "y.txt" ++ "-" ++ "f8" ++ ".txt"
    ∧ pasteDownloadGet cleanW "pz" 0 dbC8
      = (.zipAttachment ("pz" ++ ".zip")
          (pz.files.map (fun g => (downloadName cleanW g, g.raw))), dbC8) := by
  have h := c8_download_filenames cleanW "f8" "pz" 0 dbC8 pz pz fz2 rfl
    (by decide) rfl (by decide)
  have hname := h.2.1 "y.txt" rfl (by decide)
  exact ⟨hname ▸ h.1, hname, h.2.2.2⟩

/-- Counterexample to claim C9 as stated: with the valid lexer "text",
whitespace-only code and the invalid expiry "nope", the claim demands a
client error for the invalid expiry, but the code redirects back to the
create form: the empty-code redirect precedes expiry validation. -/
theorem c9_counterexample :
    createPost cfgW "text" " " "nope" "p9" "r9" 0 dbW
      = (.redirectTo ("/+" ++ "text"), dbW)
    ∧ (createPost cfgW "text" " " "nope" "p9" "r9" 0 dbW).1 ≠ .httpError 400 := by
  decide

/-- Claim C9 (amended): for the legacy single-file `Create` endpoint, an
invalid lexer yields a client error (400); with a valid lexer, empty or
whitespace-only code yields a redirect back to the empty create form for
that lexer with nothing persisted — regardless of the expiry's validity,
because this check precedes expiry validation; with a valid lexer and
non-blank code, an invalid expiry yields a client error (400) with
nothing persisted. -/
theorem c9_amended_legacy_validation
    (cfg : Config) (lexer raw expiry slug removalTok : String)
    (now : Int) (db : DB) :
    (cfg.lexers.contains lexer = false →
      createPost cfg lexer raw expiry slug removalTok now db
        = (.httpError 400, db))
    ∧ (cfg.lexers.contains lexer = true → isBlank raw = true →
        createPost cfg lexer raw expiry slug removalTok now db
          = (.redirectTo ("/+" ++ lexer), db))
    ∧ (cfg.lexers.contains lexer = true → isBlank raw = false →
        lookupExpiry cfg expiry = none →
        createPost cfg lexer raw expiry slug removalTok now db
          = (.httpError 400, db)) := by
  refine ⟨?_, ?_, ?_⟩
  · intro h
    have hm : lexer ∉ cfg.lexers := by simpa using h
    simp [createPost, hm]
  · intro h1 h2
    have h1m : lexer ∈ cfg.lexers := by simpa using h1
    simp [createPost, h1m, h2]
  · intro h1 h2 h3
    have h1m : lexer ∈ cfg.lexers := by simpa using h1
    have hraw2 : (raw == "") = false := by
      cases hr : raw == "" with
      | false => rfl
      | true =>
        have hre : raw = "" := by simpa using hr
        rw [hre] at h2
        simp [isBlank] at h2
    simp [createPost, h1m, h2, hraw2, h3]

/-- Witness for the amended C9: an unknown lexer 400s, blank code with a
valid lexer redirects to the prefilled form (even alongside a valid
expiry), and non-blank code with an invalid expiry 400s; the store stays
empty throughout. -/
theorem c9_witness :
    createPost cfgW "nosuch" "x" "1day" "p9" "r9" 0 dbW = (.httpError 400, dbW)
    ∧ createPost cfgW "text" "  " "1day" "p9" "r9" 0 dbW
        = (.redirectTo ("/+" ++ "text"), dbW)
    ∧ createPost cfgW "text" "x" "nope" "p9" "r9" 0 dbW = (.httpError 400, dbW) := by
  have h1 := (c9_amended_legacy_validation cfgW "nosuch" "x" "1day" "p9" "r9" 0 dbW).1
    (by decide)
  have h2 := (c9_amended_legacy_validation cfgW "text" "  " "1day" "p9" "r9" 0 dbW).2.1
    (by decide) (by decide)
  have h3 := (c9_amended_legacy_validation cfgW "text" "x" "nope" "p9" "r9" 0 dbW).2.2
    (by decide) (by decide) (by decide)
  exact ⟨h1, h2, h3⟩

end Pinnwand
